import Mathlib

/-!
Shallow embedding of the Mooncake cachelib-style memory allocator core:
`MemoryPool` (src/mooncake-store/src/cachelib_memory_allocator/MemoryPool.cpp)
and the parts of `AllocationClass`
(src/mooncake-store/include/cachelib_memory_allocator/AllocationClass.h)
needed by the claims, together with theorems settling the claims.

Machine integers: the pool counters are C++ `std::atomic<size_t>`; they are
modelled as `Nat` with arithmetic taken modulo `2 ^ 64` (`addW`, `subW`).
`ClassId`/`PoolId` are signed C++ integers, modelled as `Int` with the
sentinel `kInvalidClassId = -1`.

Slabs, chunks and slab pointers are identified by `Nat` tokens; `0` stands
for the null pointer where a null is meaningful.
-/

/-- Modelled from the spec: `Slab::kSize` lives in Slab.h, which is not part
of the two source files; the spec fixes it as the slab size, a power of two,
typically 4 MiB. -/
def kSize : Nat := 4194304

/-- Word modulus for `size_t` arithmetic. -/
def W : Nat := 18446744073709551616

/-- Wrapping `size_t` addition. -/
def addW (a b : Nat) : Nat := (a + b) % W

/-- Wrapping `size_t` subtraction. -/
def subW (a b : Nat) : Nat := (a + (W - b)) % W

/-- Modelled from the spec: `Slab::kInvalidClassId` lives in Slab.h (not in
src); it is the signed sentinel `-1` for "no class". -/
def kInvalidClassId : Int := -1

/-- Error kinds thrown by the pool: `std::invalid_argument` and
`std::runtime_error`. -/
inductive PoolErr where
  | invalidArgument
  | runtimeError
  deriving DecidableEq, Repr

instance {ε α : Type} [DecidableEq ε] [DecidableEq α] :
    DecidableEq (Except ε α) := fun x y =>
  match x, y with
  | Except.ok a, Except.ok b =>
    if h : a = b then isTrue (by rw [h]) else isFalse (by intro hc; cases hc; exact h rfl)
  | Except.error a, Except.error b =>
    if h : a = b then isTrue (by rw [h]) else isFalse (by intro hc; cases hc; exact h rfl)
  | Except.ok _, Except.error _ => isFalse (by intro hc; cases hc)
  | Except.error _, Except.ok _ => isFalse (by intro hc; cases hc)

/-- `SlabReleaseMode` from the source (declared in MemoryAllocator headers,
used throughout MemoryPool.cpp). -/
inductive SlabReleaseMode where
  | kResize
  | kRebalance
  deriving DecidableEq, Repr

/-- Slab header view: `{poolId, classId, allocSize, advised, markedForRelease}`
as read through `SlabAllocator::getSlabHeader`. The header type itself lives
in Slab.h (not in src); the fields are the ones MemoryPool.cpp and
AllocationClass.h read. -/
structure SlabHeader where
  poolId : Int
  classId : Int
  allocSize : Nat
  advised : Bool
  markedForRelease : Bool
  deriving DecidableEq, Repr

/-- Modelled from the spec: `SlabReleaseContext` is declared outside the two
source files. Per the spec it carries the slab, pool and victim class ids,
the mode, the receiver, and whether the release already completed
(`isReleased`); the four-argument construction used by
`MemoryPool::releaseFromFreeSlabs` produces a context with
`isReleased = true`. -/
structure SlabReleaseContext where
  slab : Nat
  poolId : Int
  classId : Int
  mode : SlabReleaseMode
  isReleased : Bool
  receiver : Int
  deriving DecidableEq, Repr

/-- Pool state. `classSlabs` aggregates, across all allocation classes of the
pool, the slabs currently installed in a class (the per-class split is not
needed by the claims); `freeSlabs` is the pool-level `freeSlabs_` vector
(same element order); `availSlabs` models the slabs the external
`SlabAllocator` can still hand out via `makeNewSlab` (head = next slab;
`freeSlab` returns a slab to it). -/
structure PoolState where
  id : Int
  maxSize : Nat
  currSlabAllocSize : Nat
  currAllocSize : Nat
  numClasses : Nat
  classSlabs : List Nat
  freeSlabs : List Nat
  availSlabs : List Nat
  nSlabResize : Nat
  nSlabRebalance : Nat
  deriving DecidableEq, Repr

/-- `std::vector::pop_back` paired with `back()`: removes and returns the last
element. -/
def popBack {α : Type} : List α → Option (α × List α)
  | [] => none
  | [x] => some (x, [])
  | x :: y :: ys =>
    match popBack (y :: ys) with
    | some (z, rest) => some (z, x :: rest)
    | none => none

/-- `std::vector::back()` on a nonempty vector (0 as junk value for empty,
which the callers rule out). -/
def backVal : List Nat → Nat
  | [] => 0
  | [x] => x
  | _ :: y :: ys => backVal (y :: ys)

/-- `MemoryPool::getSlabLocked` (MemoryPool.cpp lines 187-213): re-check
`allSlabsAllocated()` (modelled from the spec as
`currSlabAllocSize >= maxSize`, the definition living in MemoryPool.h),
bump `currSlabAllocSize_` by `Slab::kSize`, pop the back of `freeSlabs_` if
nonempty, otherwise ask the slab allocator, un-bumping on failure. -/
def MemoryPool.getSlabLocked (s : PoolState) : Option Nat × PoolState :=
  if s.maxSize ≤ s.currSlabAllocSize then (none, s)
  else
    let s1 : PoolState := { s with currSlabAllocSize := addW s.currSlabAllocSize kSize }
    match popBack s1.freeSlabs with
    | some (slab, rest) => (some slab, { s1 with freeSlabs := rest })
    | none =>
      match s1.availSlabs with
      | slab :: rest => (some slab, { s1 with availSlabs := rest })
      | [] => (none, { s1 with currSlabAllocSize := subW s1.currSlabAllocSize kSize })

/-- `MemoryPool::allocate` (MemoryPool.cpp lines 215-260). The two
`AllocationClass::allocate` attempts (fast path and the retry under the pool
lock) have their bodies in AllocationClass.cpp, which is not in src; their
outcomes are passed in as `fastAlloc` / `retryAlloc` (the chunk pointer they
would return, or `none`). On the slow path the slab obtained from
`getSlabLocked` is installed via `addSlabAndAllocate`, which per the spec
installs the slab as current and returns its first chunk (here: the slab
token itself). -/
def MemoryPool.allocate (s : PoolState) (allocSize : Nat)
    (fastAlloc retryAlloc : Option Nat) : Option Nat × PoolState :=
  match fastAlloc with
  | some p => (some p, { s with currAllocSize := addW s.currAllocSize allocSize })
  | none =>
    if s.maxSize ≤ s.currSlabAllocSize then (none, s)
    else
      match retryAlloc with
      | some p => (some p, { s with currAllocSize := addW s.currAllocSize allocSize })
      | none =>
        match MemoryPool.getSlabLocked s with
        | (none, s1) => (none, s1)
        | (some slab, s1) =>
          (some slab, { s1 with classSlabs := slab :: s1.classSlabs,
                                currAllocSize := addW s1.currAllocSize allocSize })

/-- `MemoryPool::releaseSlab` (MemoryPool.cpp lines 271-306). The slab passed
in has already been detached from its class by the caller. Resize: hand the
slab back to the slab allocator, then decrement `currSlabAllocSize_`.
Rebalance with a valid receiver: the receiver class absorbs the slab, no
accounting change. Rebalance with invalid receiver: push onto the pool
`freeSlabs_`, then decrement `currSlabAllocSize_`. -/
def MemoryPool.releaseSlab (s : PoolState) (mode : SlabReleaseMode)
    (slab : Nat) (receiverClassId : Int) : PoolState :=
  match mode with
  | SlabReleaseMode.kResize =>
    { s with availSlabs := slab :: s.availSlabs,
             currSlabAllocSize := subW s.currSlabAllocSize kSize,
             nSlabResize := s.nSlabResize + 1 }
  | SlabReleaseMode.kRebalance =>
    if receiverClassId ≠ kInvalidClassId then
      { s with classSlabs := slab :: s.classSlabs,
               nSlabRebalance := s.nSlabRebalance + 1 }
    else
      { s with freeSlabs := s.freeSlabs ++ [slab],
               currSlabAllocSize := subW s.currSlabAllocSize kSize,
               nSlabRebalance := s.nSlabRebalance + 1 }

/-- Intermediate states of the rebalance-to-pool branch of
`MemoryPool::releaseSlab` (MemoryPool.cpp lines 292-304), in program order:
entry, after `freeSlabs_.push_back` (under the pool lock), after the
`currSlabAllocSize_` decrement, after the `nSlabRebalance_` increment. -/
def rebalanceToPoolTrace (s : PoolState) (slab : Nat) : List PoolState :=
  let s1 : PoolState := { s with freeSlabs := s.freeSlabs ++ [slab] }
  let s2 : PoolState := { s1 with currSlabAllocSize := subW s1.currSlabAllocSize kSize }
  let s3 : PoolState := { s2 with nSlabRebalance := s2.nSlabRebalance + 1 }
  [s, s1, s2, s3]

/-- `MemoryPool::releaseFromFreeSlabs` (MemoryPool.cpp lines 308-319): throw
`invalid_argument` when the pool free list is empty, otherwise pop the back
and build an already-released resize context. -/
def MemoryPool.releaseFromFreeSlabs (s : PoolState) :
    Except PoolErr (SlabReleaseContext × PoolState) :=
  match popBack s.freeSlabs with
  | none => Except.error PoolErr.invalidArgument
  | some (slab, rest) =>
    Except.ok ({ slab := slab, poolId := s.id, classId := kInvalidClassId,
                 mode := SlabReleaseMode.kResize, isReleased := true,
                 receiver := kInvalidClassId },
               { s with freeSlabs := rest })

/-- `MemoryPool::startSlabRelease` (MemoryPool.cpp lines 321-354). The class
side `AllocationClass::startSlabRelease` (body in AllocationClass.cpp, not in
src) is abstracted: `classCtx` is the context it would return for a valid
victim; it touches only class-internal state, so the pool state is unchanged
by that call. -/
def MemoryPool.startSlabRelease (s : PoolState) (victim receiver : Int)
    (mode : SlabReleaseMode) (classCtx : SlabReleaseContext) :
    Except PoolErr (SlabReleaseContext × PoolState) :=
  if receiver ≠ kInvalidClassId ∧ mode ≠ SlabReleaseMode.kRebalance then
    Except.error PoolErr.invalidArgument
  else if victim = kInvalidClassId ∧ mode ≠ SlabReleaseMode.kResize then
    Except.error PoolErr.invalidArgument
  else
    match (if victim = kInvalidClassId then MemoryPool.releaseFromFreeSlabs s
           else Except.ok (classCtx, s)) with
    | Except.error e => Except.error e
    | Except.ok (ctx0, s1) =>
      let ctx : SlabReleaseContext := { ctx0 with receiver := receiver }
      if ctx.isReleased then
        Except.ok (ctx, MemoryPool.releaseSlab s1 ctx.mode ctx.slab receiver)
      else Except.ok (ctx, s1)

/-- Index computed by `std::lower_bound` over a sorted vector: the first
position whose element is not less than `size`. -/
def lowerBoundIdx : List Nat → Nat → Nat
  | [], _ => 0
  | x :: xs, size => if x < size then lowerBoundIdx xs size + 1 else 0

/-- `MemoryPool::getAllocationClassId(uint32_t size)` (MemoryPool.cpp lines
141-156): reject `size == 0` or `size > acSizes_.back()`, otherwise return
the `std::lower_bound` index into the sorted `acSizes_`. -/
def MemoryPool.getAllocationClassIdSize (acSizes : List Nat) (size : Nat) :
    Except PoolErr Nat :=
  if backVal acSizes < size ∨ size = 0 then Except.error PoolErr.invalidArgument
  else Except.ok (lowerBoundIdx acSizes size)

/-- `MemoryPool::getAllocationClassId(const void*)` (MemoryPool.cpp lines
158-185): header missing or foreign pool → `invalid_argument`; header class
`kInvalidClassId` → `invalid_argument`; class id out of the pool class range
→ `runtime_error` (corruption); otherwise the class id. -/
def MemoryPool.getAllocationClassIdMem (s : PoolState) (hdr : Option SlabHeader) :
    Except PoolErr Int :=
  match hdr with
  | none => Except.error PoolErr.invalidArgument
  | some h =>
    if h.poolId ≠ s.id then Except.error PoolErr.invalidArgument
    else if h.classId = kInvalidClassId then Except.error PoolErr.invalidArgument
    else if (s.numClasses : Int) ≤ h.classId ∨ h.classId < 0 then
      Except.error PoolErr.runtimeError
    else Except.ok h.classId

/-- `MemoryPool::getAllocationClassFor(ClassId)` (MemoryPool.cpp lines
129-135): the guard is only `cid < static_cast<ClassId>(ac_.size())`; inside
the branch the code indexes `ac_[cid]`. The vector access is modelled as a
partial lookup: `some i` for an in-range index, `none` for the out-of-bounds
access a negative `cid` performs. -/
def MemoryPool.getAllocationClassForCid (numClasses : Nat) (cid : Int) :
    Except PoolErr (Option Nat) :=
  if cid < (numClasses : Int) then
    Except.ok (if 0 ≤ cid then some cid.toNat else none)
  else Except.error PoolErr.invalidArgument

/-- Composite step used by `MemoryPool::free` (lines 264-267) and
`MemoryPool::completeSlabRelease` (line 390): a slab leaves its class (the
class bodies being in AllocationClass.cpp, not in src, the detached slab is
modelled from the spec as the head of the aggregated class-slab list; the
no-slab case never fires on the paths the source takes) and is handed to
`MemoryPool::releaseSlab`. -/
def releaseFromClassOp (s : PoolState) (mode : SlabReleaseMode) (recv : Int) :
    PoolState :=
  match s.classSlabs with
  | [] => s
  | slab :: rest =>
    MemoryPool.releaseSlab { s with classSlabs := rest } mode slab recv

/-- `MemoryPool::free` body after the routing succeeded (MemoryPool.cpp lines
263-268): `ac.free(alloc)` (body not in src; its boolean outcome is the
parameter `acFreed`) triggers `releaseSlab(kResize, slab, kInvalidClassId)`
when true; afterwards `currAllocSize_` drops by the class alloc size. -/
def MemoryPool.freeChunkOp (s : PoolState) (acFreed : Bool) (allocSize : Nat) :
    PoolState :=
  let s1 := if acFreed then releaseFromClassOp s SlabReleaseMode.kResize kInvalidClassId else s
  { s1 with currAllocSize := subW s1.currAllocSize allocSize }

/-- `MemoryPool::free` (MemoryPool.cpp lines 262-269): route by slab header
(`getAllocationClassFor(void*)`, which throws before any state is touched),
then run the free body. An error result models the C++ exception
propagating with the pool unmodified. -/
def MemoryPool.free (s : PoolState) (hdr : Option SlabHeader) (acFreed : Bool)
    (allocSize : Nat) : Except PoolErr PoolState :=
  match MemoryPool.getAllocationClassIdMem s hdr with
  | Except.error e => Except.error e
  | Except.ok _ => Except.ok (MemoryPool.freeChunkOp s acFreed allocSize)

/-- `MemoryPool::getCurrentUsedSize` (MemoryPool.cpp lines 114-117):
`currSlabAllocSize_ + freeSlabs_.size() * Slab::kSize`. -/
def MemoryPool.getCurrentUsedSize (s : PoolState) : Nat :=
  addW s.currSlabAllocSize (s.freeSlabs.length * kSize)

/-- Pool-level operations (quiescent-step granularity) generated by the entry
points named in the claims: the slab-acquiring slow path of `allocate`, a
`free` (with or without the slab-release branch), and a drain completed in
rebalance or resize mode. -/
inductive PoolOp where
  | allocSlow (allocSize : Nat)
  | freeChunk (allocSize : Nat) (acFreed : Bool)
  | rebalanceRelease (receiver : Int)
  | resizeRelease
  deriving DecidableEq, Repr

/-- One pool-level operation. -/
def applyOp (s : PoolState) : PoolOp → PoolState
  | PoolOp.allocSlow a => (MemoryPool.allocate s a none none).2
  | PoolOp.freeChunk a f => MemoryPool.freeChunkOp s f a
  | PoolOp.rebalanceRelease recv => releaseFromClassOp s SlabReleaseMode.kRebalance recv
  | PoolOp.resizeRelease => releaseFromClassOp s SlabReleaseMode.kResize kInvalidClassId

/-- Run a sequence of pool-level operations. -/
def runOps (s : PoolState) (ops : List PoolOp) : PoolState :=
  ops.foldl applyOp s

/-- A freshly constructed pool: zero counters, no slabs held, `avail` slabs
obtainable from the slab allocator. -/
def mkInit (id : Int) (maxSize numClasses : Nat) (avail : List Nat) : PoolState :=
  { id := id, maxSize := maxSize, currSlabAllocSize := 0, currAllocSize := 0,
    numClasses := numClasses, classSlabs := [], freeSlabs := [],
    availSlabs := avail, nSlabResize := 0, nSlabRebalance := 0 }

/-- Accounting invariant actually maintained by the code: the counter holds
`Slab::kSize` bytes per slab installed in a class (pool `freeSlabs_`
excluded), stays below `maxSize + kSize`, and slabs are conserved across the
three locations. -/
def PoolInv (total : Nat) (s : PoolState) : Prop :=
  s.currSlabAllocSize = kSize * s.classSlabs.length ∧
  s.currSlabAllocSize < s.maxSize + kSize ∧
  s.maxSize + kSize ≤ W ∧
  s.classSlabs.length + s.freeSlabs.length + s.availSlabs.length = total

/-- Link fields of `MemoryAllocInfo_` (AllocationClass.h lines 40-48); the
`memory`/`allocated` fields are not read by the list operations. Pointers
are `Nat` with `0` as null. -/
structure FLNode where
  prev : Nat
  next : Nat
  deriving DecidableEq, Repr

/-- Heap of `MemoryAllocInfo_` nodes addressed by pointer. -/
def updateHeap (h : Nat → FLNode) (p : Nat) (v : FLNode) : Nat → FLNode :=
  fun q => if q = p then v else h q

/-- `MemoryFreeList` (AllocationClass.h lines 50-96): intrusive list with raw
`head`/`tail` pointers into a node heap. -/
structure MemoryFreeList where
  heap : Nat → FLNode
  head : Nat
  tail : Nat

/-- `MemoryFreeList()` constructor: `head = 0; tail = 0` (AllocationClass.h
lines 52-55). -/
def MemoryFreeList.init : MemoryFreeList :=
  { heap := fun _ => { prev := 0, next := 0 }, head := 0, tail := 0 }

/-- `MemoryFreeList::push_front` (AllocationClass.h lines 69-81): zero the
links of `mem`; if the list is empty make `mem` both head and tail,
otherwise append `mem` after the current tail. -/
def MemoryFreeList.push_front (fl : MemoryFreeList) (mem : Nat) : MemoryFreeList :=
  let heap1 := updateHeap fl.heap mem { prev := 0, next := 0 }
  if fl.head = 0 then { heap := heap1, head := mem, tail := mem }
  else
    let heap2 := updateHeap heap1 fl.tail { heap1 fl.tail with next := mem }
    let heap3 := updateHeap heap2 mem { heap2 mem with prev := fl.tail }
    { heap := heap3, head := fl.head, tail := mem }

/-- `MemoryFreeList::empty` (AllocationClass.h line 83). -/
def MemoryFreeList.empty (fl : MemoryFreeList) : Bool := fl.head = 0

/-- `MemoryFreeList::front` (AllocationClass.h line 85). -/
def MemoryFreeList.front (fl : MemoryFreeList) : Nat := fl.head

/-- `MemoryFreeList::pop_front` (AllocationClass.h lines 87-89): advance
`head` to `head->next`. -/
def MemoryFreeList.pop_front (fl : MemoryFreeList) : MemoryFreeList :=
  if fl.head ≠ 0 then { fl with head := (fl.heap fl.head).next } else fl

/-- Modelled from the spec: step 1 of `AllocationClass::allocate` (body in
AllocationClass.cpp, not in src): if `freedChunks` is non-empty, pop and
return; the pop on the `MemoryFreeList` member `freedAllocations_` is
`front()` followed by `pop_front()`. -/
def allocateFromFreedChunks (fl : MemoryFreeList) : Option Nat × MemoryFreeList :=
  if fl.empty then (none, fl)
  else (some fl.front, fl.pop_front)

/-- `SlabIterationStatus` (AllocationClass.h lines 34-38). -/
inductive SlabIterationStatus where
  | kFinishedCurrentSlabAndContinue
  | kSkippedCurrentSlabAndContinue
  | kAbortIteration
  deriving DecidableEq, Repr

/-- Chunk walk of `AllocationClass::forEachAllocation` (AllocationClass.h
lines 235-248): visit `n` chunk positions starting at `ptr`, stepping by the
class allocation size; abort as soon as the callback returns false. Returns
the status together with the pointers the callback was invoked on, in
order. The callback in the source also receives the constant
`AllocInfo {poolId, classId, allocSize}` taken from the header; that
constant argument is omitted. -/
def walkAllocations (cb : Nat → Bool) (allocationSize : Nat) :
    Nat → Nat → SlabIterationStatus × List Nat
  | _, 0 => (SlabIterationStatus.kFinishedCurrentSlabAndContinue, [])
  | ptr, n + 1 =>
    if cb ptr then
      let r := walkAllocations cb allocationSize (ptr + allocationSize) n
      (r.1, ptr :: r.2)
    else (SlabIterationStatus.kAbortIteration, [ptr])

/-- `AllocationClass::forEachAllocation` (AllocationClass.h lines 191-250):
non-blocking acquisition of `startSlabReleaseLock_` (its success is the
parameter `lockAcquired`); header re-validation under the class lock; then
the chunk walk over `getAllocsPerSlab() = Slab::kSize / allocationSize_`
positions. The prefetch hints have no observable effect and are omitted. -/
def AllocationClass.forEachAllocation (classId poolId : Int)
    (allocationSize : Nat) (lockAcquired : Bool) (slabHdr : Option SlabHeader)
    (slab : Nat) (cb : Nat → Bool) : SlabIterationStatus × List Nat :=
  if lockAcquired = false then (SlabIterationStatus.kSkippedCurrentSlabAndContinue, [])
  else
    match slabHdr with
    | none => (SlabIterationStatus.kSkippedCurrentSlabAndContinue, [])
    | some h =>
      if h.classId ≠ classId ∨ h.poolId ≠ poolId ∨ h.advised = true ∨
          h.markedForRelease = true then
        (SlabIterationStatus.kSkippedCurrentSlabAndContinue, [])
      else walkAllocations cb allocationSize slab (kSize / allocationSize)

lemma kSize_pos : 0 < kSize := by decide

lemma kSize_le_W : kSize ≤ W := by decide

lemma addW_eq {a b : Nat} (h : a + b < W) : addW a b = a + b :=
  Nat.mod_eq_of_lt h

lemma subW_eq {a b : Nat} (hb : b ≤ W) (hba : b ≤ a) (ha : a < W) :
    subW a b = a - b := by
  unfold subW
  have h1 : a + (W - b) = (a - b) + W := by omega
  rw [h1, Nat.add_mod_right, Nat.mod_eq_of_lt (by omega)]

lemma popBack_eq_none {α : Type} {l : List α} : popBack l = none ↔ l = [] := by
  constructor
  · intro h
    match l with
    | [] => rfl
    | [x] => simp [popBack] at h
    | x :: y :: ys =>
      unfold popBack at h
      rcases hrec : popBack (y :: ys) with _ | ⟨z, rest⟩
      · exact absurd (popBack_eq_none.mp hrec) (by simp)
      · rw [hrec] at h; simp at h
  · rintro rfl; rfl

lemma popBack_length {α : Type} (l : List α) :
    ∀ {x : α} {rest : List α}, popBack l = some (x, rest) →
      l.length = rest.length + 1 := by
  induction l with
  | nil => intro x rest h; simp [popBack] at h
  | cons a t ih =>
    intro x rest h
    match t with
    | [] =>
      simp [popBack] at h
      simp [← h.2]
    | b :: bs =>
      have hdef : popBack (a :: b :: bs) =
          (match popBack (b :: bs) with
           | some (z, r) => some (z, a :: r)
           | none => none) := rfl
      rw [hdef] at h
      cases hrec : popBack (b :: bs) with
      | none => rw [hrec] at h; simp at h
      | some p =>
        obtain ⟨z, r⟩ := p
        rw [hrec] at h
        simp only [Option.some.injEq, Prod.mk.injEq] at h
        have hl := ih hrec
        rw [← h.2]
        simpa using hl


lemma poolInv_allocSlow (total : Nat) (s : PoolState) (a : Nat)
    (h : PoolInv total s) : PoolInv total (MemoryPool.allocate s a none none).2 := by
  obtain ⟨h1, h2, h3, h4⟩ := h
  by_cases hg : s.maxSize ≤ s.currSlabAllocSize
  · simp only [MemoryPool.allocate, MemoryPool.getSlabLocked, hg, if_true]
    exact ⟨h1, h2, h3, h4⟩
  · have hcw : s.currSlabAllocSize + kSize < W := by omega
    have haw : addW s.currSlabAllocSize kSize = s.currSlabAllocSize + kSize :=
      addW_eq hcw
    cases hpb : popBack s.freeSlabs with
    | some p =>
      obtain ⟨slab, rest⟩ := p
      have hlen := popBack_length _ hpb
      simp only [MemoryPool.allocate, MemoryPool.getSlabLocked, hg, if_false, hpb, haw]
      refine ⟨?_, ?_, ?_, ?_⟩ <;> dsimp only
      · simp only [List.length_cons]
        rw [h1, Nat.mul_succ]
      · omega
      · exact h3
      · simp only [List.length_cons]
        omega
    | none =>
      cases hav : s.availSlabs with
      | cons slab rest =>
        simp only [MemoryPool.allocate, MemoryPool.getSlabLocked, hg, if_false, hpb,
          hav, haw]
        rw [hav] at h4
        simp only [List.length_cons] at h4
        refine ⟨?_, ?_, ?_, ?_⟩ <;> dsimp only
        · simp only [List.length_cons]
          rw [h1, Nat.mul_succ]
        · omega
        · exact h3
        · simp only [List.length_cons]
          omega
      | nil =>
        have hk := kSize_le_W
        have hsw : subW (s.currSlabAllocSize + kSize) kSize = s.currSlabAllocSize := by
          rw [subW_eq hk (by omega) hcw]
          omega
        simp only [MemoryPool.allocate, MemoryPool.getSlabLocked, hg, if_false, hpb,
          hav, haw, hsw]
        rw [hav] at h4
        exact ⟨h1, h2, h3, by simpa using h4⟩

lemma poolInv_releaseFromClassOp (total : Nat) (s : PoolState)
    (mode : SlabReleaseMode) (recv : Int) (h : PoolInv total s) :
    PoolInv total (releaseFromClassOp s mode recv) := by
  obtain ⟨h1, h2, h3, h4⟩ := h
  cases hc : s.classSlabs with
  | nil =>
    simp only [releaseFromClassOp, hc]
    exact ⟨h1, h2, h3, h4⟩
  | cons slab rest =>
    rw [hc] at h1 h4
    simp only [List.length_cons] at h1 h4
    rw [Nat.mul_succ] at h1
    have hk := kSize_le_W
    have hcW : s.currSlabAllocSize < W := by omega
    have hsw : subW s.currSlabAllocSize kSize = kSize * rest.length := by
      rw [subW_eq hk (by omega) hcW]
      omega
    cases mode with
    | kResize =>
      simp only [releaseFromClassOp, hc, MemoryPool.releaseSlab, hsw]
      refine ⟨?_, ?_, ?_, ?_⟩ <;> dsimp only
      · omega
      · exact h3
      · simp only [List.length_cons]
        omega
    | kRebalance =>
      by_cases hr : recv = kInvalidClassId
      · simp only [releaseFromClassOp, hc, MemoryPool.releaseSlab, hr, ne_eq,
          not_true_eq_false, if_false, hsw]
        refine ⟨?_, ?_, ?_, ?_⟩ <;> dsimp only
        · omega
        · exact h3
        · simp only [List.length_append, List.length_cons, List.length_nil]
          omega
      · simp only [releaseFromClassOp, hc, MemoryPool.releaseSlab, ne_eq, hr,
          not_false_eq_true, if_true]
        refine ⟨?_, ?_, ?_, ?_⟩ <;> dsimp only
        · simp only [List.length_cons]
          rw [Nat.mul_succ]
          omega
        · omega
        · exact h3
        · simp only [List.length_cons]
          omega

lemma poolInv_freeChunkOp (total : Nat) (s : PoolState) (acFreed : Bool)
    (a : Nat) (h : PoolInv total s) :
    PoolInv total (MemoryPool.freeChunkOp s acFreed a) := by
  have hrel := poolInv_releaseFromClassOp total s SlabReleaseMode.kResize
    kInvalidClassId h
  cases acFreed with
  | false =>
    obtain ⟨h1, h2, h3, h4⟩ := h
    simp only [MemoryPool.freeChunkOp, if_false]
    exact ⟨h1, h2, h3, h4⟩
  | true =>
    obtain ⟨h1, h2, h3, h4⟩ := hrel
    simp only [MemoryPool.freeChunkOp, if_true]
    exact ⟨h1, h2, h3, h4⟩

lemma poolInv_applyOp (total : Nat) (s : PoolState) (op : PoolOp)
    (h : PoolInv total s) : PoolInv total (applyOp s op) := by
  cases op with
  | allocSlow a => exact poolInv_allocSlow total s a h
  | freeChunk a f => exact poolInv_freeChunkOp total s f a h
  | rebalanceRelease recv =>
    exact poolInv_releaseFromClassOp total s SlabReleaseMode.kRebalance recv h
  | resizeRelease =>
    exact poolInv_releaseFromClassOp total s SlabReleaseMode.kResize
      kInvalidClassId h

lemma poolInv_runOps (total : Nat) (s : PoolState) (ops : List PoolOp)
    (h : PoolInv total s) : PoolInv total (runOps s ops) := by
  induction ops generalizing s with
  | nil => exact h
  | cons op rest ih => exact ih (applyOp s op) (poolInv_applyOp total s op h)

lemma poolInv_mkInit (id : Int) (maxSize numClasses : Nat) (avail : List Nat)
    (hW : maxSize + kSize ≤ W) :
    PoolInv avail.length (mkInit id maxSize numClasses avail) := by
  refine ⟨by simp [mkInit], ?_, ?_, by simp [mkInit]⟩
  · simp only [mkInit]
    have := kSize_pos
    omega
  · simpa [mkInit] using hW

lemma range_map_shift (a ptr m : Nat) :
    (List.range (m + 1)).map (fun i => ptr + i * a)
      = ptr :: (List.range m).map (fun i => ptr + a + i * a) := by
  rw [List.range_succ_eq_map, List.map_cons, List.map_map]
  congr 1
  · simp
  · congr 1
    funext i
    simp only [Function.comp_apply]
    rw [Nat.succ_mul]
    ring

lemma walkAllocations_all_true (cb : Nat → Bool) (a : Nat) :
    ∀ (n ptr : Nat), (∀ i, i < n → cb (ptr + i * a) = true) →
      walkAllocations cb a ptr n =
        (SlabIterationStatus.kFinishedCurrentSlabAndContinue,
         (List.range n).map (fun i => ptr + i * a)) := by
  intro n
  induction n with
  | zero => intro ptr _; simp [walkAllocations]
  | succ m ih =>
    intro ptr h
    have h0 : cb ptr = true := by simpa using h 0 (Nat.succ_pos m)
    have hrest : ∀ i, i < m → cb (ptr + a + i * a) = true := by
      intro i hi
      have hx := h (i + 1) (by omega)
      rw [show ptr + (i + 1) * a = ptr + a + i * a by ring] at hx
      exact hx
    simp only [walkAllocations, h0, if_true]
    rw [ih (ptr + a) hrest, range_map_shift]

lemma walkAllocations_abort (cb : Nat → Bool) (a : Nat) :
    ∀ (k n ptr : Nat), k < n → cb (ptr + k * a) = false →
      (∀ i, i < k → cb (ptr + i * a) = true) →
      walkAllocations cb a ptr n =
        (SlabIterationStatus.kAbortIteration,
         (List.range (k + 1)).map (fun i => ptr + i * a)) := by
  intro k
  induction k with
  | zero =>
    intro n ptr hkn hfalse _
    obtain ⟨m, rfl⟩ : ∃ m, n = m + 1 := ⟨n - 1, by omega⟩
    have h0 : cb ptr = false := by simpa using hfalse
    simp [walkAllocations, h0, List.range_succ]
  | succ j ih =>
    intro n ptr hkn hfalse htrue
    obtain ⟨m, rfl⟩ : ∃ m, n = m + 1 := ⟨n - 1, by omega⟩
    have h0 : cb ptr = true := by simpa using htrue 0 (Nat.succ_pos j)
    have hfalse2 : cb (ptr + a + j * a) = false := by
      rw [show ptr + a + j * a = ptr + (j + 1) * a by ring]
      exact hfalse
    have htrue2 : ∀ i, i < j → cb (ptr + a + i * a) = true := by
      intro i hi
      have hx := htrue (i + 1) (by omega)
      rw [show ptr + (i + 1) * a = ptr + a + i * a by ring] at hx
      exact hx
    simp only [walkAllocations, h0, if_true]
    rw [ih m (ptr + a) (by omega) hfalse2 htrue2, range_map_shift a ptr (j + 1)]

lemma lowerBoundIdx_below (l : List Nat) (size : Nat) :
    ∀ j, j < lowerBoundIdx l size → l.getD j 0 < size := by
  induction l with
  | nil => intro j hj; simp [lowerBoundIdx] at hj
  | cons x xs ih =>
    intro j hj
    by_cases hx : x < size
    · simp only [lowerBoundIdx, hx, if_true] at hj
      cases j with
      | zero => simpa using hx
      | succ m =>
        simp only [List.getD_cons_succ]
        exact ih m (by omega)
    · simp [lowerBoundIdx, hx] at hj

lemma lowerBoundIdx_found : ∀ (l : List Nat) (size : Nat), l ≠ [] →
    size ≤ backVal l →
    lowerBoundIdx l size < l.length ∧ size ≤ l.getD (lowerBoundIdx l size) 0
  | [], _, h, _ => absurd rfl h
  | [x], size, _, hle => by
    have hb : backVal [x] = x := rfl
    rw [hb] at hle
    have hout : lowerBoundIdx [x] size =
        if x < size then lowerBoundIdx [] size + 1 else 0 := rfl
    by_cases hx : x < size
    · exact absurd hx (by omega)
    · rw [hout, if_neg hx]
      simp only [List.length_cons, List.length_nil, List.getD_cons_zero]
      exact ⟨Nat.succ_pos _, by omega⟩
  | x :: y :: ys, size, _, hle => by
    have hout : lowerBoundIdx (x :: y :: ys) size =
        if x < size then lowerBoundIdx (y :: ys) size + 1 else 0 := rfl
    by_cases hx : x < size
    · rw [hout, if_pos hx]
      have hb : backVal (x :: y :: ys) = backVal (y :: ys) := rfl
      rw [hb] at hle
      have hrec := lowerBoundIdx_found (y :: ys) size (by simp) hle
      refine ⟨?_, ?_⟩
      · have := hrec.1
        simp only [List.length_cons] at this ⊢
        omega
      · simpa only [List.getD_cons_succ] using hrec.2
    · rw [hout, if_neg hx]
      simp only [List.length_cons, List.getD_cons_zero]
      exact ⟨Nat.succ_pos _, by omega⟩

lemma getD_mem : ∀ (l : List Nat) (j : Nat), j < l.length → l.getD j 0 ∈ l
  | [], j, h => by simp at h
  | x :: xs, 0, _ => by simp
  | x :: xs, j + 1, h => by
    simp only [List.getD_cons_succ]
    exact List.mem_cons_of_mem _
      (getD_mem xs j (by simpa using Nat.lt_of_succ_lt_succ h))

lemma pairwise_getD_lt : ∀ (l : List Nat),
    l.Pairwise (fun p q => p < q) → ∀ i j, i < j → j < l.length →
      l.getD i 0 < l.getD j 0
  | [], _, _, j, _, hj => by simp at hj
  | x :: xs, hp, i, 0, hij, _ => absurd hij (by omega)
  | x :: xs, hp, 0, j + 1, _, hj => by
    simp only [List.getD_cons_zero, List.getD_cons_succ]
    exact (List.pairwise_cons.mp hp).1 _
      (getD_mem xs j (by simpa using Nat.lt_of_succ_lt_succ hj))
  | x :: xs, hp, i + 1, j + 1, hij, hj => by
    simp only [List.getD_cons_succ]
    exact pairwise_getD_lt xs (List.pairwise_cons.mp hp).2 i j (by omega)
      (by simpa using Nat.lt_of_succ_lt_succ hj)

/-- C1: the claim states that `currSlabAllocSize` counts the bytes of all
slabs held by the pool, including slabs sitting on the pool `freeSlabs`
list, and that moving a slab between a class and the pool free list leaves
the counter unchanged. The code refutes this: after one slab is allocated
into a class and then rebalanced back to the pool free list
(`releaseSlab(kRebalance, slab, kInvalidClassId)`), the counter is 0 while
the pool still holds that slab on `freeSlabs`, so the counter does not
equal `kSize` times the number of held slabs. -/
theorem currSlabAllocSize_counts_freeSlabs_refuted :
    (runOps (mkInit 0 (kSize * 4) 1 [10])
        [PoolOp.allocSlow 64, PoolOp.rebalanceRelease kInvalidClassId]).currSlabAllocSize ≠
      kSize *
        ((runOps (mkInit 0 (kSize * 4) 1 [10])
            [PoolOp.allocSlow 64, PoolOp.rebalanceRelease kInvalidClassId]).classSlabs.length +
         (runOps (mkInit 0 (kSize * 4) 1 [10])
            [PoolOp.allocSlow 64, PoolOp.rebalanceRelease kInvalidClassId]).freeSlabs.length) := by
  decide

/-- C1 (amended): at every quiescent moment reachable by allocate, free
(with or without the slab-release branch), getSlabLocked (inside the
allocate slow path) and releaseSlab on slabs drained from classes,
`currSlabAllocSize` equals `Slab::kSize` times the number of slabs
currently allocated to classes, with pool `freeSlabs` excluded; moving a
slab between a class and the pool free list therefore changes the counter
by exactly `Slab::kSize`. -/
theorem currSlabAllocSize_eq_class_slab_bytes (id : Int)
    (maxSize numClasses : Nat) (avail : List Nat) (ops : List PoolOp)
    (hW : maxSize + kSize ≤ W) :
    (runOps (mkInit id maxSize numClasses avail) ops).currSlabAllocSize =
      kSize * (runOps (mkInit id maxSize numClasses avail) ops).classSlabs.length :=
  (poolInv_runOps avail.length _ ops
    (poolInv_mkInit id maxSize numClasses avail hW)).1

theorem currSlabAllocSize_eq_class_slab_bytes_witness :
    kSize * 4 + kSize ≤ W ∧
    (runOps (mkInit 0 (kSize * 4) 1 [10]) [PoolOp.allocSlow 64]).currSlabAllocSize =
      kSize * (runOps (mkInit 0 (kSize * 4) 1 [10])
        [PoolOp.allocSlow 64]).classSlabs.length :=
  ⟨by decide,
   currSlabAllocSize_eq_class_slab_bytes 0 (kSize * 4) 1 [10]
     [PoolOp.allocSlow 64] (by decide)⟩

/-- C2: the claim (and the spec) describe `freedChunks` as a LIFO whose pop
returns the most recently pushed element. The in-source `MemoryFreeList`
contradicts its own interface names: `push_front` appends at the tail
(the code even comments the append), while `pop_front`/`front` take the
head, so the list behaves FIFO. Freeing chunk 1 and then chunk 2 into an
empty freed list and then allocating returns chunk 1, the least recently
freed, not chunk 2 as the claim requires. -/
theorem freedChunks_fifo_not_lifo :
    (allocateFromFreedChunks
        ((MemoryFreeList.init.push_front 1).push_front 2)).1 = some 1 ∧
    (allocateFromFreedChunks
        ((MemoryFreeList.init.push_front 1).push_front 2)).1 ≠ some 2 := by
  constructor
  · decide
  · decide

/-- C3: `MemoryPool::startSlabRelease` validation. A valid receiver with a
mode other than Rebalance throws InvalidArgument; an invalid victim with a
mode other than Resize throws InvalidArgument; an invalid victim in Resize
mode pops one slab from the pool `freeSlabs` (throwing InvalidArgument when
that list is empty) and yields a context with `isReleased = true`, upon
which the pool itself immediately invokes `releaseSlab(mode, slab,
receiver)`; and for a valid victim the same immediate `releaseSlab` happens
exactly when the context the class returns is already released. -/
theorem startSlabRelease_validation (s : PoolState) (victim receiver : Int)
    (mode : SlabReleaseMode) (classCtx : SlabReleaseContext) :
    (receiver ≠ kInvalidClassId → mode ≠ SlabReleaseMode.kRebalance →
      MemoryPool.startSlabRelease s victim receiver mode classCtx =
        Except.error PoolErr.invalidArgument) ∧
    (victim = kInvalidClassId → mode ≠ SlabReleaseMode.kResize →
      MemoryPool.startSlabRelease s victim receiver mode classCtx =
        Except.error PoolErr.invalidArgument) ∧
    (victim = kInvalidClassId → mode = SlabReleaseMode.kResize →
      receiver = kInvalidClassId → s.freeSlabs = [] →
      MemoryPool.startSlabRelease s victim receiver mode classCtx =
        Except.error PoolErr.invalidArgument) ∧
    (∀ slab rest, victim = kInvalidClassId → mode = SlabReleaseMode.kResize →
      receiver = kInvalidClassId → popBack s.freeSlabs = some (slab, rest) →
      MemoryPool.startSlabRelease s victim receiver mode classCtx =
        Except.ok ({ slab := slab, poolId := s.id, classId := kInvalidClassId,
                     mode := SlabReleaseMode.kResize, isReleased := true,
                     receiver := receiver },
                   MemoryPool.releaseSlab { s with freeSlabs := rest }
                     SlabReleaseMode.kResize slab receiver)) ∧
    (victim ≠ kInvalidClassId →
      (receiver = kInvalidClassId ∨ mode = SlabReleaseMode.kRebalance) →
      MemoryPool.startSlabRelease s victim receiver mode classCtx =
        Except.ok ({ classCtx with receiver := receiver },
          if classCtx.isReleased then
            MemoryPool.releaseSlab s classCtx.mode classCtx.slab receiver
          else s)) := by
  refine ⟨?_, ?_, ?_, ?_, ?_⟩
  · intro hr hm
    simp [MemoryPool.startSlabRelease, hr, hm]
  · intro hv hm
    by_cases h1 : receiver ≠ kInvalidClassId ∧ mode ≠ SlabReleaseMode.kRebalance
    · simp [MemoryPool.startSlabRelease, h1.1, h1.2]
    · simp only [MemoryPool.startSlabRelease, if_neg h1]
      simp [hv, hm]
  · intro hv hm hr hfree
    subst hv hm hr
    simp [MemoryPool.startSlabRelease, MemoryPool.releaseFromFreeSlabs, hfree, popBack]
  · intro slab rest hv hm hr hpb
    subst hv hm hr
    simp [MemoryPool.startSlabRelease, MemoryPool.releaseFromFreeSlabs, hpb]
  · intro hv hd
    have h1 : ¬(receiver ≠ kInvalidClassId ∧ mode ≠ SlabReleaseMode.kRebalance) := by
      rcases hd with h | h <;> simp [h]
    have h2 : ¬(victim = kInvalidClassId ∧ mode ≠ SlabReleaseMode.kResize) := by
      simp [hv]
    simp only [MemoryPool.startSlabRelease, if_neg h1, if_neg h2, if_neg hv]
    cases hrel : classCtx.isReleased <;> simp [hrel]

theorem startSlabRelease_validation_witness :
    popBack ({ mkInit 7 kSize 2 [] with freeSlabs := [5] } : PoolState).freeSlabs =
      some (5, []) ∧
    MemoryPool.startSlabRelease { mkInit 7 kSize 2 [] with freeSlabs := [5] }
        kInvalidClassId kInvalidClassId SlabReleaseMode.kResize
        { slab := 0, poolId := 0, classId := 0, mode := SlabReleaseMode.kRebalance,
          isReleased := false, receiver := 0 } =
      Except.ok ({ slab := 5, poolId := 7, classId := kInvalidClassId,
                   mode := SlabReleaseMode.kResize, isReleased := true,
                   receiver := kInvalidClassId },
                 MemoryPool.releaseSlab (mkInit 7 kSize 2 [])
                   SlabReleaseMode.kResize 5 kInvalidClassId) :=
  ⟨rfl,
   (startSlabRelease_validation { mkInit 7 kSize 2 [] with freeSlabs := [5] }
     kInvalidClassId kInvalidClassId SlabReleaseMode.kResize
     { slab := 0, poolId := 0, classId := 0, mode := SlabReleaseMode.kRebalance,
       isReleased := false, receiver := 0 }).2.2.2.1 5 [] rfl rfl rfl rfl⟩

/-- C4: header validation of `MemoryPool::free` and
`classIdForMemory` (`getAllocationClassId(const void*)`). A missing header
or a foreign `poolId` fails with InvalidArgument; a header classId equal to
the invalid sentinel fails with InvalidArgument; a same-pool header whose
classId is outside the class range (negative other than the sentinel, or
at least the class count, such as an injected 9999) fails with Runtime. An
error result models the C++ exception thrown before any pool or class
state is touched, so no state is modified in these cases. -/
theorem free_header_validation (s : PoolState) (hdr : Option SlabHeader)
    (acFreed : Bool) (a : Nat) :
    (hdr = none →
      MemoryPool.getAllocationClassIdMem s hdr =
          Except.error PoolErr.invalidArgument ∧
      MemoryPool.free s hdr acFreed a = Except.error PoolErr.invalidArgument) ∧
    (∀ h, hdr = some h → h.poolId ≠ s.id →
      MemoryPool.getAllocationClassIdMem s hdr =
          Except.error PoolErr.invalidArgument ∧
      MemoryPool.free s hdr acFreed a = Except.error PoolErr.invalidArgument) ∧
    (∀ h, hdr = some h → h.classId = kInvalidClassId →
      MemoryPool.getAllocationClassIdMem s hdr =
          Except.error PoolErr.invalidArgument ∧
      MemoryPool.free s hdr acFreed a = Except.error PoolErr.invalidArgument) ∧
    (∀ h, hdr = some h → h.poolId = s.id → h.classId ≠ kInvalidClassId →
      ((s.numClasses : Int) ≤ h.classId ∨ h.classId < 0) →
      MemoryPool.getAllocationClassIdMem s hdr =
          Except.error PoolErr.runtimeError ∧
      MemoryPool.free s hdr acFreed a = Except.error PoolErr.runtimeError) := by
  refine ⟨?_, ?_, ?_, ?_⟩
  · rintro rfl
    exact ⟨rfl, rfl⟩
  · rintro h rfl hp
    have hm : MemoryPool.getAllocationClassIdMem s (some h) =
        Except.error PoolErr.invalidArgument := by
      simp [MemoryPool.getAllocationClassIdMem, hp]
    exact ⟨hm, by simp [MemoryPool.free, hm]⟩
  · rintro h rfl hc
    have hm : MemoryPool.getAllocationClassIdMem s (some h) =
        Except.error PoolErr.invalidArgument := by
      by_cases hp : h.poolId ≠ s.id
      · simp [MemoryPool.getAllocationClassIdMem, hp]
      · simp [MemoryPool.getAllocationClassIdMem, hp, hc]
    exact ⟨hm, by simp [MemoryPool.free, hm]⟩
  · rintro h rfl hp hc hrange
    have hm : MemoryPool.getAllocationClassIdMem s (some h) =
        Except.error PoolErr.runtimeError := by
      simp [MemoryPool.getAllocationClassIdMem, hp, hc, hrange]
    exact ⟨hm, by simp [MemoryPool.free, hm]⟩

theorem free_header_validation_witness :
    ({ poolId := 1, classId := 9999, allocSize := 64, advised := false,
       markedForRelease := false } : SlabHeader).poolId = (mkInit 1 kSize 3 []).id ∧
    MemoryPool.free (mkInit 1 kSize 3 [])
        (some { poolId := 1, classId := 9999, allocSize := 64, advised := false,
                markedForRelease := false }) false 64 =
      Except.error PoolErr.runtimeError :=
  ⟨rfl,
   ((free_header_validation (mkInit 1 kSize 3 [])
       (some { poolId := 1, classId := 9999, allocSize := 64, advised := false,
               markedForRelease := false }) false 64).2.2.2
     { poolId := 1, classId := 9999, allocSize := 64, advised := false,
       markedForRelease := false } rfl rfl (by decide) (by decide)).2⟩

/-- C5: the clause "whenever currSlabAllocSize >= maxSize it returns null"
fails as stated: with the pool full (counter equal to maxSize) but the
class-level allocate able to serve from its freed-chunk list, `allocate`
returns that chunk, not null. -/
theorem allocate_null_on_full_refuted :
    ({ mkInit 0 kSize 1 [] with currSlabAllocSize := kSize } : PoolState).maxSize ≤
      ({ mkInit 0 kSize 1 [] with currSlabAllocSize := kSize } : PoolState).currSlabAllocSize ∧
    (MemoryPool.allocate { mkInit 0 kSize 1 [] with currSlabAllocSize := kSize }
        64 (some 7) none).1 ≠ none := by
  constructor
  · decide
  · decide

/-- C5 (amended): `MemoryPool::allocate` never throws for out-of-memory.
Whenever the class-level allocate fails and `currSlabAllocSize >= maxSize`,
it returns null with the pool state untouched; any null result leaves the
pool state (in particular `currSlabAllocSize` and `currAllocSize`)
unchanged, the slow path un-bumping the reserved `Slab::kSize` exactly when
no slab could be produced; and on the slow path the result is null exactly
when both the pool free list is empty and the slab allocator has nothing
left. -/
theorem allocate_oom_accounting (s : PoolState) (a : Nat)
    (fastAlloc retryAlloc : Option Nat)
    (hcw : s.currSlabAllocSize + kSize < W) :
    (fastAlloc = none → s.maxSize ≤ s.currSlabAllocSize →
      MemoryPool.allocate s a fastAlloc retryAlloc = (none, s)) ∧
    (∀ s', MemoryPool.allocate s a fastAlloc retryAlloc = (none, s') → s' = s) ∧
    (fastAlloc = none → retryAlloc = none → ¬ s.maxSize ≤ s.currSlabAllocSize →
      ((MemoryPool.allocate s a fastAlloc retryAlloc).1 = none ↔
        (s.freeSlabs = [] ∧ s.availSlabs = []))) := by
  have haw : addW s.currSlabAllocSize kSize = s.currSlabAllocSize + kSize :=
    addW_eq hcw
  have hsw : subW (s.currSlabAllocSize + kSize) kSize = s.currSlabAllocSize := by
    rw [subW_eq kSize_le_W (by omega) hcw]
    omega
  refine ⟨?_, ?_, ?_⟩
  · rintro rfl hg
    simp [MemoryPool.allocate, hg]
  · intro s' hres
    match hf : fastAlloc with
    | some p => simp [MemoryPool.allocate] at hres
    | none =>
      by_cases hg : s.maxSize ≤ s.currSlabAllocSize
      · simp [MemoryPool.allocate, hg] at hres
        exact hres.symm
      · match hr : retryAlloc with
        | some p => simp [MemoryPool.allocate, hg] at hres
        | none =>
          cases hpb : popBack s.freeSlabs with
          | some p =>
            obtain ⟨slab, rest⟩ := p
            simp [MemoryPool.allocate, MemoryPool.getSlabLocked, hg, hpb] at hres
          | none =>
            cases hav : s.availSlabs with
            | cons slab rest =>
              simp [MemoryPool.allocate, MemoryPool.getSlabLocked, hg, hpb,
                hav] at hres
            | nil =>
              simp [MemoryPool.allocate, MemoryPool.getSlabLocked, hg, hpb, hav,
                haw, hsw] at hres
              rw [← hav] at hres
              exact hres.symm
  · rintro rfl rfl hg
    cases hpb : popBack s.freeSlabs with
    | some p =>
      obtain ⟨slab, rest⟩ := p
      have : s.freeSlabs ≠ [] := by
        intro hnil
        rw [popBack_eq_none.mpr hnil] at hpb
        exact Option.noConfusion hpb
      simp [MemoryPool.allocate, MemoryPool.getSlabLocked, hg, hpb, this]
    | none =>
      have hfree : s.freeSlabs = [] := popBack_eq_none.mp hpb
      cases hav : s.availSlabs with
      | cons slab rest =>
        simp [MemoryPool.allocate, MemoryPool.getSlabLocked, hg, hpb, hav, hfree,
          popBack]
      | nil =>
        simp [MemoryPool.allocate, MemoryPool.getSlabLocked, hg, hpb, hav, hfree,
          popBack]

theorem allocate_oom_accounting_witness :
    ({ mkInit 0 kSize 1 [] with currSlabAllocSize := kSize } : PoolState).currSlabAllocSize +
        kSize < W ∧
    ({ mkInit 0 kSize 1 [] with currSlabAllocSize := kSize } : PoolState).maxSize ≤
      ({ mkInit 0 kSize 1 [] with currSlabAllocSize := kSize } : PoolState).currSlabAllocSize ∧
    MemoryPool.allocate { mkInit 0 kSize 1 [] with currSlabAllocSize := kSize }
        64 none none =
      (none, { mkInit 0 kSize 1 [] with currSlabAllocSize := kSize }) :=
  ⟨by decide, by decide,
   (allocate_oom_accounting { mkInit 0 kSize 1 [] with currSlabAllocSize := kSize }
     64 none none (by decide)).1 rfl (by decide)⟩

/-- C6: `forEachAllocation` returns SkippedAndContinue without invoking the
callback whenever the non-blocking lock acquisition fails, or the header is
missing, mismatched, advised, or marked for release; otherwise it visits
the `floor(kSize / allocSize)` chunk positions in ascending offset order
(the visited list is exactly the range map), returning AbortIteration at
the first callback returning false and FinishedAndContinue when the
callback holds throughout. -/
theorem forEachAllocation_contract (classId poolId : Int) (a : Nat)
    (lockAcquired : Bool) (slabHdr : Option SlabHeader) (slab : Nat)
    (cb : Nat → Bool) :
    (lockAcquired = false →
      AllocationClass.forEachAllocation classId poolId a lockAcquired slabHdr slab cb =
        (SlabIterationStatus.kSkippedCurrentSlabAndContinue, [])) ∧
    (slabHdr = none →
      AllocationClass.forEachAllocation classId poolId a lockAcquired slabHdr slab cb =
        (SlabIterationStatus.kSkippedCurrentSlabAndContinue, [])) ∧
    (∀ h, slabHdr = some h →
      (h.classId ≠ classId ∨ h.poolId ≠ poolId ∨ h.advised = true ∨
        h.markedForRelease = true) →
      AllocationClass.forEachAllocation classId poolId a lockAcquired slabHdr slab cb =
        (SlabIterationStatus.kSkippedCurrentSlabAndContinue, [])) ∧
    (∀ h, slabHdr = some h → lockAcquired = true → h.classId = classId →
      h.poolId = poolId → h.advised = false → h.markedForRelease = false →
      ((∀ i, i < kSize / a → cb (slab + i * a) = true) →
        AllocationClass.forEachAllocation classId poolId a lockAcquired slabHdr slab cb =
          (SlabIterationStatus.kFinishedCurrentSlabAndContinue,
           (List.range (kSize / a)).map (fun i => slab + i * a))) ∧
      (∀ k, k < kSize / a → cb (slab + k * a) = false →
        (∀ i, i < k → cb (slab + i * a) = true) →
        AllocationClass.forEachAllocation classId poolId a lockAcquired slabHdr slab cb =
          (SlabIterationStatus.kAbortIteration,
           (List.range (k + 1)).map (fun i => slab + i * a)))) := by
  refine ⟨?_, ?_, ?_, ?_⟩
  · rintro rfl
    simp [AllocationClass.forEachAllocation]
  · rintro rfl
    cases lockAcquired <;> simp [AllocationClass.forEachAllocation]
  · rintro h rfl hbad
    cases lockAcquired with
    | false => simp [AllocationClass.forEachAllocation]
    | true =>
      have hcond : h.classId ≠ classId ∨ h.poolId ≠ poolId ∨ h.advised = true ∨
          h.markedForRelease = true := hbad
      simp only [AllocationClass.forEachAllocation]
      rw [if_neg (by simp)]
      rw [if_pos hcond]
  · rintro h rfl hl hcid hpid hadv hrel
    subst hl hcid hpid
    have hok : ¬(h.classId ≠ h.classId ∨ h.poolId ≠ h.poolId ∨ h.advised = true ∨
        h.markedForRelease = true) := by
      simp [hadv, hrel]
    constructor
    · intro hall
      simp only [AllocationClass.forEachAllocation]
      rw [if_neg (by simp), if_neg hok]
      exact walkAllocations_all_true cb a (kSize / a) slab hall
    · intro k hk hfalse htrue
      simp only [AllocationClass.forEachAllocation]
      rw [if_neg (by simp), if_neg hok]
      exact walkAllocations_abort cb a k (kSize / a) slab hk hfalse htrue

theorem forEachAllocation_contract_witness :
    1 < kSize / 2097152 ∧
    (fun p => decide (p < 2097152)) (0 + 1 * 2097152) = false ∧
    AllocationClass.forEachAllocation 0 1 2097152 true
        (some { poolId := 1, classId := 0, allocSize := 2097152,
                advised := false, markedForRelease := false }) 0
        (fun p => decide (p < 2097152)) =
      (SlabIterationStatus.kAbortIteration,
       (List.range (1 + 1)).map (fun i => 0 + i * 2097152)) :=
  ⟨by decide, by decide,
   ((forEachAllocation_contract 0 1 2097152 true
      (some { poolId := 1, classId := 0, allocSize := 2097152,
              advised := false, markedForRelease := false }) 0
      (fun p => decide (p < 2097152))).2.2.2
      { poolId := 1, classId := 0, allocSize := 2097152,
        advised := false, markedForRelease := false }
      rfl rfl rfl rfl rfl rfl).2 1 (by decide) (by decide)
      (fun i hi => by
        have h0 : i = 0 := by omega
        subst h0
        decide)⟩

/-- C7: `classIdForSize` routing. For every size with `0 < size` at most the
largest class alloc size, `getAllocationClassId(size)` returns the least
index whose class alloc size is at least `size`: the chosen class fits, all
earlier (smaller) classes are strictly below `size`, and any class that
fits has at least the chosen alloc size. Size 0 or above the maximum fails
with InvalidArgument. -/
theorem classIdForSize_least_fit (acSizes : List Nat) (size : Nat)
    (hsorted : acSizes.Pairwise (fun p q => p < q)) (hne : acSizes ≠ []) :
    (size = 0 ∨ backVal acSizes < size →
      MemoryPool.getAllocationClassIdSize acSizes size =
        Except.error PoolErr.invalidArgument) ∧
    (0 < size → size ≤ backVal acSizes →
      MemoryPool.getAllocationClassIdSize acSizes size =
        Except.ok (lowerBoundIdx acSizes size) ∧
      lowerBoundIdx acSizes size < acSizes.length ∧
      size ≤ acSizes.getD (lowerBoundIdx acSizes size) 0 ∧
      (∀ j, j < lowerBoundIdx acSizes size → acSizes.getD j 0 < size) ∧
      (∀ j, j < acSizes.length → size ≤ acSizes.getD j 0 →
        acSizes.getD (lowerBoundIdx acSizes size) 0 ≤ acSizes.getD j 0)) := by
  constructor
  · intro hbad
    have hcond : backVal acSizes < size ∨ size = 0 := hbad.symm
    simp [MemoryPool.getAllocationClassIdSize, hcond]
  · intro hpos hle
    have hcond : ¬(backVal acSizes < size ∨ size = 0) := by omega
    have hfound := lowerBoundIdx_found acSizes size hne hle
    refine ⟨by simp [MemoryPool.getAllocationClassIdSize, hcond], hfound.1,
      hfound.2, lowerBoundIdx_below acSizes size, ?_⟩
    intro j hj hjfit
    rcases Nat.lt_trichotomy j (lowerBoundIdx acSizes size) with hlt | heq | hgt
    · exact absurd hjfit (by have := lowerBoundIdx_below acSizes size j hlt; omega)
    · rw [heq]
    · exact Nat.le_of_lt (pairwise_getD_lt acSizes hsorted _ j hgt hj)

theorem classIdForSize_least_fit_witness :
    0 < 100 ∧ 100 ≤ backVal [64, 128, 1024] ∧
    MemoryPool.getAllocationClassIdSize [64, 128, 1024] 100 =
      Except.ok (lowerBoundIdx [64, 128, 1024] 100) ∧
    lowerBoundIdx [64, 128, 1024] 100 = 1 :=
  ⟨by decide, by decide,
   ((classIdForSize_least_fit [64, 128, 1024] 100 (by decide) (by decide)).2
     (by decide) (by decide)).1,
   by decide⟩

/-- C8: in the rebalance-to-pool branch of `releaseSlab`, the slab is pushed
onto the pool `freeSlabs` strictly before `currSlabAllocSize` is
decremented: over the program-order intermediate states of that operation
(whose last state is exactly the result of `releaseSlab`), any state in
which the counter differs from its entry value already has the slab on the
free list. -/
theorem releaseSlab_insert_then_decrement (s : PoolState) (slab : Nat) :
    (rebalanceToPoolTrace s slab).getLast? =
      some (MemoryPool.releaseSlab s SlabReleaseMode.kRebalance slab
        kInvalidClassId) ∧
    ∀ t, t ∈ rebalanceToPoolTrace s slab →
      t.currSlabAllocSize ≠ s.currSlabAllocSize → slab ∈ t.freeSlabs := by
  constructor
  · simp [rebalanceToPoolTrace, MemoryPool.releaseSlab]
  · intro t ht hne
    simp only [rebalanceToPoolTrace, List.mem_cons, List.not_mem_nil,
      or_false] at ht
    rcases ht with rfl | rfl | rfl | rfl
    · exact absurd rfl hne
    · simp
    · simp
    · simp

theorem releaseSlab_insert_then_decrement_witness :
    ({ mkInit 3 (kSize * 2) 1 [] with currSlabAllocSize := 0, freeSlabs := [7] } : PoolState) ∈
      rebalanceToPoolTrace { mkInit 3 (kSize * 2) 1 [] with currSlabAllocSize := kSize } 7 ∧
    ({ mkInit 3 (kSize * 2) 1 [] with currSlabAllocSize := 0, freeSlabs := [7] } : PoolState).currSlabAllocSize ≠
      ({ mkInit 3 (kSize * 2) 1 [] with currSlabAllocSize := kSize } : PoolState).currSlabAllocSize ∧
    7 ∈ ({ mkInit 3 (kSize * 2) 1 [] with currSlabAllocSize := 0, freeSlabs := [7] } : PoolState).freeSlabs :=
  ⟨by decide, by decide,
   (releaseSlab_insert_then_decrement
     { mkInit 3 (kSize * 2) 1 [] with currSlabAllocSize := kSize } 7).2
     { mkInit 3 (kSize * 2) 1 [] with currSlabAllocSize := 0, freeSlabs := [7] }
     (by decide) (by decide)⟩

/-- C9: the claim says `getAllocationClassFor(ClassId)` throws
InvalidArgument exactly when the id is not one of the pool classes, and in
particular rejects a negative id such as `kInvalidClassId`. The code
refutes the negative case: the guard is only
`cid < static_cast<ClassId>(ac_.size())`, so `cid = -1` passes it and the
code indexes the class vector out of bounds (modelled as the `Except.ok
none` result) instead of throwing. -/
theorem getAllocationClassFor_negative_not_rejected :
    MemoryPool.getAllocationClassForCid 2 kInvalidClassId ≠
      Except.error PoolErr.invalidArgument ∧
    MemoryPool.getAllocationClassForCid 2 kInvalidClassId = Except.ok none := by
  constructor
  · decide
  · decide

/-- C9 (amended): `getAllocationClassFor(ClassId)` throws InvalidArgument
exactly when `cid` is at least the number of classes; a negative `cid`
(including `kInvalidClassId`) passes the guard and is used as an
out-of-bounds vector index (the `Except.ok none` result) rather than being
rejected. -/
theorem getAllocationClassFor_guard (numClasses : Nat) (cid : Int) :
    (MemoryPool.getAllocationClassForCid numClasses cid =
        Except.error PoolErr.invalidArgument ↔ (numClasses : Int) ≤ cid) ∧
    (cid < 0 →
      MemoryPool.getAllocationClassForCid numClasses cid = Except.ok none) := by
  constructor
  · unfold MemoryPool.getAllocationClassForCid
    by_cases hlt : cid < (numClasses : Int)
    · simp only [if_pos hlt]
      constructor
      · intro h
        exact Except.noConfusion h
      · intro h
        omega
    · simp only [if_neg hlt]
      constructor
      · intro _
        omega
      · intro _
        trivial
  · intro hneg
    unfold MemoryPool.getAllocationClassForCid
    rw [if_pos (by omega), if_neg (by omega)]

theorem getAllocationClassFor_guard_witness :
    (-2 : Int) < 0 ∧
    MemoryPool.getAllocationClassForCid 3 (-2) = Except.ok none :=
  ⟨by decide, (getAllocationClassFor_guard 3 (-2)).2 (by decide)⟩

/-- C10: `getCurrentUsedSize` returns `currSlabAllocSize` plus `Slab::kSize`
times the number of slabs on the pool `freeSlabs` list; consequently, in
every reachable pool state, slabs parked on the pool free list contribute
to the used size on top of what `currSlabAllocSize` records (which counts
only class-held slabs), the total being `kSize` times class-held plus
free-listed slabs. -/
theorem getCurrentUsedSize_adds_free_slabs (id : Int)
    (maxSize numClasses : Nat) (avail : List Nat) (ops : List PoolOp)
    (sN : PoolState) (hs : sN = runOps (mkInit id maxSize numClasses avail) ops)
    (hW : maxSize + kSize ≤ W) (hT : kSize * avail.length < W) :
    MemoryPool.getCurrentUsedSize sN =
      sN.currSlabAllocSize + kSize * sN.freeSlabs.length ∧
    MemoryPool.getCurrentUsedSize sN =
      kSize * (sN.classSlabs.length + sN.freeSlabs.length) := by
  obtain ⟨h1, h2, h3, h4⟩ : PoolInv avail.length sN := by
    rw [hs]
    exact poolInv_runOps avail.length _ ops
      (poolInv_mkInit id maxSize numClasses avail hW)
  have hbound : sN.currSlabAllocSize + sN.freeSlabs.length * kSize < W := by
    rw [h1]
    calc kSize * sN.classSlabs.length + sN.freeSlabs.length * kSize
        = kSize * (sN.classSlabs.length + sN.freeSlabs.length) := by ring
      _ ≤ kSize * avail.length := Nat.mul_le_mul_left _ (by omega)
      _ < W := hT
  constructor
  · unfold MemoryPool.getCurrentUsedSize
    rw [addW_eq hbound]
    ring
  · unfold MemoryPool.getCurrentUsedSize
    rw [addW_eq hbound, h1]
    ring

theorem getCurrentUsedSize_adds_free_slabs_witness :
    kSize * 4 + kSize ≤ W ∧ kSize * ([10] : List Nat).length < W ∧
    MemoryPool.getCurrentUsedSize
        (runOps (mkInit 0 (kSize * 4) 1 [10])
          [PoolOp.allocSlow 64, PoolOp.rebalanceRelease kInvalidClassId]) =
      kSize *
        ((runOps (mkInit 0 (kSize * 4) 1 [10])
            [PoolOp.allocSlow 64, PoolOp.rebalanceRelease kInvalidClassId]).classSlabs.length +
         (runOps (mkInit 0 (kSize * 4) 1 [10])
            [PoolOp.allocSlow 64, PoolOp.rebalanceRelease kInvalidClassId]).freeSlabs.length) :=
  ⟨by decide, by decide,
   (getCurrentUsedSize_adds_free_slabs 0 (kSize * 4) 1 [10]
     [PoolOp.allocSlow 64, PoolOp.rebalanceRelease kInvalidClassId] _ rfl
     (by decide) (by decide)).2⟩
